import Mathlib

/-!
Verification development for the iterative web-research agent
(`backend/src/agent/{graph.py, search_providers.py, app.py, configuration.py}`).

Python strings are modelled as `List Char` (`Str`); Python's `str.strip`,
`str.replace`, `str.startswith`, `str.endswith` and the substring test
`p in s` are given faithful executable models below.  External collaborators
(the LLM clients, `json.loads`, the pydantic constructors, the Exa client and
the HTTP clients) are passed in as oracle parameters, exactly at the points
where the source calls out to them.
-/

namespace DeepResearch

/-- Python strings, modelled as lists of characters. -/
abbrev Str := List Char

/-- Python `str.strip()`: remove leading and trailing whitespace. -/
def pyStrip (s : Str) : Str :=
  ((s.dropWhile Char.isWhitespace).reverse.dropWhile Char.isWhitespace).reverse

/-- Python `s.startswith(p)`. -/
def pyStartswith (p s : Str) : Bool := p.isPrefixOf s

/-- Python `s.endswith(p)`. -/
def pyEndswith (p s : Str) : Bool := p.isSuffixOf s

/-- Python `p in s` for strings: contiguous-substring test
(`"" in s` is `True`, as in Python). -/
def pyContains (p : Str) : Str → Bool
  | [] => p.isEmpty
  | c :: rest => p.isPrefixOf (c :: rest) || pyContains p rest

/-- Helper for `pyReplace`: scan left to right, replacing each
non-overlapping occurrence of `p` (nonempty) by `v`.  The `fuel` argument
makes the recursion structural so that the kernel can evaluate it; it is
always called with `fuel = s.length`, which suffices. -/
def pyReplaceAux (p v : Str) : Nat → Str → Str
  | 0, s => s
  | _ + 1, [] => []
  | fuel + 1, c :: rest =>
    if p.isPrefixOf (c :: rest) then v ++ pyReplaceAux p v fuel (rest.drop (p.length - 1))
    else c :: pyReplaceAux p v fuel rest

/-- Python `s.replace(p, v)`: replace every non-overlapping occurrence of
`p` in `s` by `v`, scanning left to right.  For empty `p`, Python
interleaves `v` around every character. -/
def pyReplace (p v s : Str) : Str :=
  if p.isEmpty then v ++ s.foldr (fun c acc => (c :: v) ++ acc) []
  else pyReplaceAux p v s.length s

/-- Decimal digits helper for `natStr` (structural via fuel, so the kernel
can evaluate it). -/
def natStrAux : Nat → Nat → Str
  | 0, _ => []
  | fuel + 1, n => if n = 0 then [] else natStrAux fuel (n / 10) ++ [Char.ofNat (48 + n % 10)]

/-- Decimal rendering of a natural number, as interpolated by Python
f-strings. -/
def natStr (n : Nat) : Str := if n = 0 then ['0'] else natStrAux (n + 1) n

/-- Python `sep.join(parts)`. -/
def joinSep (sep : Str) : List Str → Str
  | [] => []
  | [x] => x
  | x :: y :: xs => x ++ sep ++ joinSep sep (y :: xs)

/-- Python `s.lower()` (ASCII view, which is all the source compares). -/
def toLowerStr (s : Str) : Str := s.map Char.toLower

/-- Helper for `pyTitle`: the Boolean records whether the previous character
was alphabetic. -/
def pyTitleAux : Bool → Str → Str
  | _, [] => []
  | prev, c :: cs =>
    if c.isAlpha then (if prev then c.toLower else c.toUpper) :: pyTitleAux true cs
    else c :: pyTitleAux false cs

/-- Python `s.title()`: capitalise the first letter of every alphabetic run,
lowercase the rest. -/
def pyTitle (s : Str) : Str := pyTitleAux false s

/-! ## Citation records and the `finalize_answer` dedup loop (graph.py) -/

/-- A gathered source, as built by `format_exa_results_for_llm` (and, on the
Google path, by `resolve_urls`): a Python dict with keys `label`,
`short_url` and `value` (the canonical URL). -/
structure SourceRec where
  label : Str
  short_url : Str
  value : Str
deriving DecidableEq, Repr

/-- The source-filtering and URL-replacement loop of `finalize_answer`
(graph.py lines 387-394): iterate over `sources_gathered` in order; when a
source's `short_url` occurs in the current answer text, replace every
occurrence by the canonical `value` and append the source to
`unique_sources`.  Returns the rewritten text and the kept sources. -/
def finalize_dedup (result_content : Str) : List SourceRec → Str × List SourceRec
  | [] => (result_content, [])
  | s :: rest =>
    if pyContains s.short_url result_content then
      let next := finalize_dedup (pyReplace s.short_url s.value result_content) rest
      (next.1, s :: next.2)
    else
      finalize_dedup result_content rest

/-- One step of the `finalize_answer` text rewriting: the answer text after
processing a single source. -/
def finalizeStepText (t : Str) (s : SourceRec) : Str :=
  if pyContains s.short_url t then pyReplace s.short_url s.value t else t

/-- Decidable side condition for the finalize dedup: every step's rewriting
leaves the occurrence status of every *later* source's `short_url`
unchanged (it neither erases nor introduces occurrences). -/
def preservesLaterB : Str → List SourceRec → Bool
  | _, [] => true
  | t, s :: rest =>
    (rest.all fun s2 =>
      pyContains s2.short_url (finalizeStepText t s) == pyContains s2.short_url t)
    && preservesLaterB (finalizeStepText t s) rest

/-- Decidable side condition for the finalize dedup: once a source's
`short_url` has been replaced, no occurrence of it is present in the
rewritten text at that step nor reappears after any later step.  `gone`
accumulates the short URLs replaced so far. -/
def replacedStayGoneB : Str → List Str → List SourceRec → Bool
  | _, _, [] => true
  | t, gone, s :: rest =>
    let t2 := finalizeStepText t s
    let gone2 := if pyContains s.short_url t then s.short_url :: gone else gone
    gone2.all (fun u => !(pyContains u t2)) && replacedStayGoneB t2 gone2 rest

/-! ## Structured output wrapper (graph.py, `get_structured_output` /
`StructuredLLM.invoke`) -/

/-- The code-fence stripping performed by `StructuredLLM.invoke`
(graph.py lines 125-132) on the raw model response before `json.loads`:
strip whitespace, drop a leading ```json or ``` fence, drop a trailing
``` fence, strip again. -/
def extract_json_content (resp : Str) : Str :=
  let c0 := pyStrip resp
  let c1 := if pyStartswith "```json".toList c0 then c0.drop 7 else c0
  let c2 := if pyStartswith "```".toList c1 then c1.drop 3 else c1
  let c3 := if pyEndswith "```".toList c2 then c2.take (c2.length - 3) else c2
  pyStrip c3

/-- The error outcomes of `StructuredLLM.invoke` (graph.py lines 134-139).
Only `json.JSONDecodeError` is caught and rewrapped into the `ValueError`
carrying the response text (`jsonParseError`); any exception raised by the
pydantic construction `self.schema(**data)` propagates unchanged
(`schemaException`). -/
inductive StructuredError where
  | jsonParseError (msg : Str)
  | schemaException (msg : Str)
deriving DecidableEq, Repr

/-- The message built by the wrapper's `ValueError` for a JSON decode
failure: `f"Failed to parse JSON response: {e}\nResponse: {content}"`. -/
def jsonFailMsg (e content : Str) : Str :=
  "Failed to parse JSON response: ".toList ++ e ++ "\nResponse: ".toList ++ content

/-- `StructuredLLM.invoke`'s parse-and-validate step (graph.py lines
121-139).  `loads` models `json.loads` and `schemaCtor` models the pydantic
construction `self.schema(**data)`; both are external libraries, passed as
oracles.  The `try` block catches only `json.JSONDecodeError`. -/
def structured_invoke {J R : Type} (loads : Str → Except Str J)
    (schemaCtor : J → Except Str R) (resp : Str) : Except StructuredError R :=
  let content := extract_json_content resp
  match loads content with
  | .error e => .error (.jsonParseError (jsonFailMsg e content))
  | .ok d =>
    match schemaCtor d with
    | .error e => .error (.schemaException e)
    | .ok r => .ok r

/-! ## Search providers (search_providers.py) -/

/-- A raw Exa API result as consumed by `ExaSearchProvider.search`:
`none` fields model missing attributes (`hasattr` false), and empty
lists/strings model falsy present attributes.  The relevance score is a
float in the source; it is kept abstract here (type parameter `σ`) since
the code only stores it. -/
structure ExaRawResult (σ : Type) where
  title : Option Str
  url : Str
  highlights : Option (List Str)
  text : Option Str
  score : Option σ

/-- The unified `SearchResult` dataclass (search_providers.py lines 8-14). -/
structure SearchResultRec (σ : Type) where
  title : Str
  url : Str
  content : Str
  score : Option σ
deriving Repr

/-- `ExaSearchProvider.search` (search_providers.py lines 33-63): the call
to `self.client.search_and_contents` is an oracle (`outcome`); any
exception from it is caught and degraded to the empty result list.  On
success each raw result is normalised: content is the joined highlights
when truthy, else the text truncated to 2000 characters, else empty;
a missing title becomes the empty string. -/
def exa_search {σ : Type} (outcome : Except Str (List (ExaRawResult σ))) :
    List (SearchResultRec σ) :=
  match outcome with
  | .error _ => []
  | .ok rs => rs.map fun r =>
      let content :=
        match r.highlights with
        | some (h :: hs) => joinSep " ".toList (h :: hs)
        | _ =>
          match r.text with
          | some (c :: cs) => (c :: cs).take 2000
          | _ => []
      { title := r.title.getD [], url := r.url, content := content, score := r.score }

/-- The short citation URL minted by `format_exa_results_for_llm`
(search_providers.py line 80): `f"https://exa.ai/search/id/{query_id}-{idx}"`. -/
def exaShortUrl (query_id idx : Nat) : Str :=
  "https://exa.ai/search/id/".toList ++ natStr query_id ++ "-".toList ++ natStr idx

/-- One formatted block of `format_exa_results_for_llm`
(search_providers.py lines 83-88). -/
def exaFormattedPart {σ : Type} (r : SearchResultRec σ) (idx query_id : Nat) : Str :=
  "\n### Source ".toList ++ natStr (idx + 1) ++ ": ".toList ++ r.title
    ++ "\nURL: ".toList ++ exaShortUrl query_id idx
    ++ "\n\n".toList ++ r.content ++ "\n".toList

/-- The source record tracked by `format_exa_results_for_llm`
(search_providers.py lines 91-95): label is the title up to its first `.`
(or `Source {idx+1}` when the title is empty), the minted short URL, and
the real URL as `value`. -/
def exaSourceRec {σ : Type} (r : SearchResultRec σ) (idx query_id : Nat) : SourceRec :=
  { label := if r.title.isEmpty then "Source ".toList ++ natStr (idx + 1)
             else r.title.takeWhile (· ≠ '.'),
    short_url := exaShortUrl query_id idx,
    value := r.url }

/-- `format_exa_results_for_llm` (search_providers.py lines 66-98): an empty
result list yields `("No search results found.", [])`; otherwise the blocks
are joined with `\n---\n` and one source record is minted per result. -/
def format_exa_results_for_llm {σ : Type} (results : List (SearchResultRec σ))
    (query_id : Nat) : Str × List SourceRec :=
  if results.isEmpty then ("No search results found.".toList, [])
  else
    (joinSep "\n---\n".toList (results.enum.map fun p => exaFormattedPart p.2 p.1 query_id),
     results.enum.map fun p => exaSourceRec p.2 p.1 query_id)

/-- The constructed search-provider handle (the `ExaSearchProvider`
instance; `google` gets `None`). -/
inductive SearchProviderH where
  | exa (api_key : Str)
deriving DecidableEq, Repr

/-- `get_search_provider` (search_providers.py lines 101-111): the factory
raises `ValueError` for a missing Exa key on the `openrouter`/`local`
providers and for an unknown provider identifier; `google` gets no
provider. -/
def get_search_provider (provider_type api_key : Str) : Except Str (Option SearchProviderH) :=
  if provider_type = "openrouter".toList ∨ provider_type = "local".toList then
    if api_key.isEmpty then
      .error "Exa API key is required for OpenRouter and local providers".toList
    else .ok (some (.exa api_key))
  else if provider_type = "google".toList then .ok none
  else .error ("Unknown provider type: ".toList ++ provider_type)

/-! ## Graph nodes (graph.py) -/

/-- A provider call issued by a graph node; used to record, per node, which
external services it touches. -/
inductive ExternalCall where
  | llm_call (prompt : Str)
  | search_call (query : Str)
deriving DecidableEq, Repr

/-- Modelled from the spec: the query-writer prompt template lives in
`agent/prompts.py`, which is not under src/.  Per the spec (§4.1), its
inputs are the current conversation's research topic and the configured
initial-query-count. -/
def query_writer_prompt (research_topic : Str) (number_queries : Nat) : Str :=
  "Generate ".toList ++ natStr number_queries
    ++ " search queries for the research topic: ".toList ++ research_topic

/-- Modelled from the spec: the `SearchQueryList` structured-output schema
lives in `agent/tools_and_schemas.py`, which is not under src/.  Per the
spec (§4.1), the structured decoding of `generate_query` produces "a list
of distinct search query strings" and "returns at least one query", so the
decode accepts exactly the non-empty duplicate-free candidate lists. -/
def search_query_list_decode (queries : List Str) : Except Str (List Str) :=
  if queries ≠ [] ∧ queries.Nodup then .ok queries
  else .error "StructuredDecodeError: invalid SearchQueryList".toList

/-- `generate_query` (graph.py lines 145-177): resolve the initial query
count (per-state override, else the configured default), build the prompt,
run the structured LLM (oracle `llm` returns the candidate list that the
structured decode then validates), and return `result.query` together with
the log of provider calls the node made. -/
def generate_query (initial_search_query_count : Option Nat)
    (number_of_initial_queries : Nat) (llm : Str → List Str)
    (research_topic : Str) : Except Str (List Str × List ExternalCall) :=
  let count := initial_search_query_count.getD number_of_initial_queries
  let prompt := query_writer_prompt research_topic count
  match search_query_list_decode (llm prompt) with
  | .error e => .error e
  | .ok qs => .ok (qs, [.llm_call prompt])

/-- One `Send("web_research", {"search_query": ..., "id": ...})` payload. -/
structure SendTask where
  search_query : Str
  id : Nat
deriving DecidableEq, Repr

/-- `continue_to_web_research` (graph.py lines 180-188): one web_research
task per generated query, with `id` the query's position in the list. -/
def continue_to_web_research (search_query : List Str) : List SendTask :=
  search_query.enum.map fun p => { search_query := p.2, id := p.1 }

/-- The structured `Reflection` verdict returned by the reflection LLM. -/
structure ReflectionOut where
  is_sufficient : Bool
  knowledge_gap : Str
  follow_up_queries : List Str

/-- The state update returned by `reflection` (graph.py lines 312-318). -/
structure ReflectionUpdate where
  is_sufficient : Bool
  knowledge_gap : Str
  follow_up_queries : List Str
  research_loop_count : Int
  number_of_ran_queries : Nat

/-- `reflection` (graph.py lines 280-318): increments
`research_loop_count` exactly once (`state.get("research_loop_count", 0) + 1`),
records `number_of_ran_queries = len(state["search_query"])`, and passes the
LLM's structured verdict through. -/
def reflection_update (research_loop_count : Option Int) (search_query : List Str)
    (verdict : ReflectionOut) : ReflectionUpdate :=
  { is_sufficient := verdict.is_sufficient,
    knowledge_gap := verdict.knowledge_gap,
    follow_up_queries := verdict.follow_up_queries,
    research_loop_count := research_loop_count.getD 0 + 1,
    number_of_ran_queries := search_query.length }

/-- The routing outcome of `evaluate_research`: either the literal
`"finalize_answer"` or a batch of `Send("web_research", ...)` payloads. -/
inductive RouteDecision where
  | finalize_answer
  | web_research_sends (tasks : List SendTask)
deriving DecidableEq, Repr

/-- `evaluate_research` (graph.py lines 321-355): resolve
`max_research_loops` (per-state override when not `None`, else the
configured default); finalize iff `is_sufficient` or the loop count has
reached the bound, otherwise dispatch one task per follow-up query with ids
continuing from `number_of_ran_queries`. -/
def evaluate_research (st : ReflectionUpdate) (max_override : Option Int)
    (configured_max : Int) : RouteDecision :=
  let max_research_loops := max_override.getD configured_max
  if st.is_sufficient || st.research_loop_count ≥ max_research_loops then
    .finalize_answer
  else
    .web_research_sends (st.follow_up_queries.enum.map fun p =>
      { search_query := p.2, id := st.number_of_ran_queries + p.1 })

/-- The summarisation prompt built by `_web_research_exa`
(graph.py lines 261-269). -/
def summary_prompt (research_topic formatted : Str) : Str :=
  "Based on the following search results, provide a comprehensive summary that answers the research topic.\nInclude relevant facts, data, and insights from the sources. Make sure to reference the sources by their URLs.\n\nResearch Topic: ".toList
    ++ research_topic
    ++ "\n\nSearch Results:\n".toList ++ formatted
    ++ "\n\nProvide a well-organized summary with source references:".toList

/-- The `WebSearchState` consumed by a web_research task. -/
structure WebSearchStateRec where
  search_query : Str
  id : Nat
deriving DecidableEq, Repr

/-- The additive state update returned by a web_research node
(graph.py lines 273-277). -/
structure WebResearchUpdate where
  sources_gathered : List SourceRec
  search_query : List Str
  web_research_result : List Str
deriving DecidableEq, Repr

/-- `_web_research_exa` (graph.py lines 246-277): construct the search
provider (which raises on a missing Exa key), run the search (oracle
`search_outcome`, exceptions already absorbed by `exa_search`), format the
results, and summarise with the LLM (oracle `llm`). -/
def web_research_exa {σ : Type} (provider exa_api_key : Str)
    (search_outcome : Except Str (List (ExaRawResult σ))) (llm : Str → Str)
    (st : WebSearchStateRec) : Except Str WebResearchUpdate :=
  match get_search_provider provider exa_api_key with
  | .error e => .error e
  | .ok _ =>
    let search_results := exa_search search_outcome
    let (formatted_text, sources) := format_exa_results_for_llm search_results st.id
    let prompt := summary_prompt st.search_query formatted_text
    .ok { sources_gathered := sources,
          search_query := [st.search_query],
          web_research_result := [llm prompt] }

/-- The module-level initialisation of graph.py (lines 40-52): resolving
the active provider and, only on the `google` branch, eagerly building a
genai client (printing a warning rather than raising when the key is
missing).  No credential of the `openrouter`/`local` search path is checked
here: initialisation never raises. -/
def graph_module_init (active_provider _google_api_key : Str) : Except Str Unit :=
  if active_provider = "google".toList then
    .ok ()
  else
    .ok ()

/-- The unconditional edges registered on the graph builder
(graph.py lines 413, 419, 425): `START → generate_query`,
`web_research → reflection`, `finalize_answer → END`. -/
def static_edges : List (Str × Str) :=
  [("__start__".toList, "generate_query".toList),
   ("web_research".toList, "reflection".toList),
   ("finalize_answer".toList, "__end__".toList)]

/-! ## Run-level driver for the research loop

Modelled from the spec: the LangGraph state-merge semantics come from
`agent/state.py`, which is not under src/.  Per the spec (§3 "Lifecycle",
§9 "Implicit state merging"), accumulator fields such as `search_query` use
an append-only merge (each node's output is merged into, not replacing, the
state) and scalar fields are last-write-wins.  Consequently
`generate_query`'s returned query list is appended into the `search_query`
accumulator, and every web_research task appends its own query again
(graph.py returns `"search_query": [state["search_query"]]`). -/

/-- One reflection→dispatch cycle of the compiled graph, iterated on fuel:
execute the current wave of web_research tasks (each appends its query to
the accumulator), run `reflection`, and follow `evaluate_research`'s
routing.  `reflections n` is the structured verdict of the `n`-th
reflection call (the LLM oracle).  Returns the loop count at finalize time
together with every wave of dispatched tasks. -/
def run_waves (reflections : Nat → ReflectionOut) (max_override : Option Int)
    (configured_max : Int) :
    Nat → List Str → Int → List SendTask → List (List SendTask) →
    Option (Int × List (List SendTask))
  | 0, _, _, _, _ => none
  | fuel + 1, search_query, loop_count, tasks, waves =>
    let sq := search_query ++ tasks.map (·.search_query)
    let ru := reflection_update (some loop_count) sq (reflections loop_count.toNat)
    match evaluate_research ru max_override configured_max with
    | .finalize_answer => some (ru.research_loop_count, waves ++ [tasks])
    | .web_research_sends ts =>
      run_waves reflections max_override configured_max fuel sq
        ru.research_loop_count ts (waves ++ [tasks])

/-- Fuel sufficient for `run_waves` to reach `finalize_answer`: one cycle
per remaining loop-count increment, plus the forced first cycle. -/
def research_fuel (max_override : Option Int) (configured_max : Int) : Nat :=
  (max_override.getD configured_max).toNat + 1

/-- A full run of the compiled graph after `generate_query` has produced
`initial_queries` (merged into the `search_query` accumulator):
`continue_to_web_research` dispatches the first wave and `run_waves`
iterates the loop. -/
def run_research (initial_queries : List Str) (reflections : Nat → ReflectionOut)
    (max_override : Option Int) (configured_max : Int) :
    Option (Int × List (List SendTask)) :=
  run_waves reflections max_override configured_max
    (research_fuel max_override configured_max)
    initial_queries 0 (continue_to_web_research initial_queries) []

/-! ## Model listing (app.py) -/

/-- One entry of a models list: dict with keys `name`, `display_name`,
`description`. -/
structure ModelEntry where
  name : Str
  display_name : Str
  description : Str
deriving DecidableEq, Repr

/-- The record returned by the `/api/models` helpers. -/
structure ModelListing where
  models : List ModelEntry
  source : Str
  provider : Str
  error : Option Str
deriving DecidableEq, Repr

/-- The inner `{models, fetched, error}` record built by the `_fetch_models`
closures in app.py. -/
structure FetchRec where
  models : List ModelEntry
  fetched : Bool
  error : Option Str
deriving DecidableEq, Repr

/-- The hardcoded Google fallback models (app.py lines 91-112). -/
def google_fallback_models : List ModelEntry :=
  [⟨"models/gemini-2.5-flash".toList, "Gemini 2.5 Flash".toList,
    "Fast and efficient model for most tasks".toList⟩,
   ⟨"models/gemini-2.5-pro".toList, "Gemini 2.5 Pro".toList,
    "Most capable model for complex tasks".toList⟩,
   ⟨"models/gemini-2.0-flash".toList, "Gemini 2.0 Flash".toList,
    "Fast experimental model".toList⟩,
   ⟨"models/gemini-2.0-flash-exp".toList, "Gemini 2.0 Flash (Experimental)".toList,
    "Latest experimental flash model".toList⟩]

/-- A raw model object from the Google listing API: optional fields model
missing attributes. -/
structure GoogleModelRaw where
  name : Str
  display_name : Option Str
  description : Option Str
  supported_generation_methods : Option (List Str)

/-- The keyword exclusion list of `_list_google_models` (app.py line 131). -/
def excluded_keywords : List Str :=
  ["embedding".toList, "tts".toList, "image".toList, "robotics".toList,
   "computer-use".toList]

/-- The `should_include` filter of `_list_google_models` (app.py lines
136-149): include when `generateContent` is among the supported generation
methods, or when the lowercased name contains `gemini` and none of the
excluded keywords. -/
def include_google_model (m : GoogleModelRaw) : Bool :=
  let lower := toLowerStr m.name
  (match m.supported_generation_methods with
   | some ms => ms.contains "generateContent".toList
   | none => false)
  || (pyContains "gemini".toList lower
      && !(excluded_keywords.any fun k => pyContains k lower))

/-- The per-model entry built by `_list_google_models` (app.py lines
151-167), including the display-name cleanup
`display_name.replace("models/", "").replace("-", " ").title()`. -/
def google_entry (m : GoogleModelRaw) : ModelEntry :=
  let dn0 := m.display_name.getD m.name
  let dn := if pyStartswith "models/".toList dn0 then
              pyTitle (pyReplace "-".toList " ".toList
                (pyReplace "models/".toList [] dn0))
            else dn0
  { name := m.name, display_name := dn, description := m.description.getD [] }

/-- `_fetch_models_from_google` (app.py lines 114-183): no API key, an
exception from the client, or an empty filtered list all degrade to the
hardcoded fallback with the triggering error message; a non-empty fetched
list is returned as live. -/
def fetch_models_from_google (api_key : Str)
    (listing : Except Str (List GoogleModelRaw)) : FetchRec :=
  if api_key.isEmpty then
    ⟨google_fallback_models, false, some "No API key".toList⟩
  else
    match listing with
    | .error e => ⟨google_fallback_models, false, some e⟩
    | .ok ms =>
      let models := (ms.filter include_google_model).map google_entry
      if models.isEmpty then
        ⟨google_fallback_models, false, some "No models in response".toList⟩
      else ⟨models, true, none⟩

/-- `_list_google_models` (app.py lines 86-202): wrap the fetch result,
mapping `fetched` to the `source` tag.  (The outer `except` branch is
unreachable here because the inner fetch already absorbs every failure.) -/
def list_google_models (api_key : Str)
    (listing : Except Str (List GoogleModelRaw)) : ModelListing :=
  let r := fetch_models_from_google api_key listing
  { models := r.models,
    source := if r.fetched then "google_api".toList else "fallback".toList,
    provider := "google".toList,
    error := r.error }

/-- The hardcoded OpenRouter fallback models (app.py lines 211-242). -/
def openrouter_fallback_models : List ModelEntry :=
  [⟨"anthropic/claude-3.5-sonnet".toList, "Claude 3.5 Sonnet".toList,
    "Anthropic's most capable model".toList⟩,
   ⟨"anthropic/claude-3-haiku".toList, "Claude 3 Haiku".toList,
    "Fast and efficient Claude model".toList⟩,
   ⟨"openai/gpt-4o".toList, "GPT-4o".toList,
    "OpenAI's flagship model".toList⟩,
   ⟨"openai/gpt-4o-mini".toList, "GPT-4o Mini".toList,
    "Fast and affordable GPT-4 variant".toList⟩,
   ⟨"google/gemini-pro-1.5".toList, "Gemini Pro 1.5".toList,
    "Google's advanced Gemini model".toList⟩,
   ⟨"meta-llama/llama-3.1-70b-instruct".toList, "Llama 3.1 70B".toList,
    "Meta's open-source large model".toList⟩]

/-- A raw model object from the OpenRouter `/models` payload. -/
structure ORModelRaw where
  id : Option Str
  display : Option Str
  description : Option Str

/-- The per-model filter of `_list_openrouter_models` (app.py lines
263-269): skip ids containing `embed` or `vision` (lowercased). -/
def keep_openrouter_model (m : ORModelRaw) : Bool :=
  let idl := toLowerStr (m.id.getD [])
  !(pyContains "embed".toList idl || pyContains "vision".toList idl)

/-- The per-model entry built by `_list_openrouter_models`
(app.py lines 271-275). -/
def openrouter_entry (m : ORModelRaw) : ModelEntry :=
  let model_id := m.id.getD []
  { name := model_id, display_name := m.display.getD model_id,
    description := m.description.getD [] }

/-- The `_fetch_models` closure of `_list_openrouter_models` (app.py lines
244-283): no API key, an exception, a non-200 status, or an empty filtered
list degrade to the hardcoded fallback with the triggering message; a
non-empty list is truncated to 50 and returned as live. -/
def fetch_openrouter_models (api_key : Str)
    (resp : Except Str (Nat × List ORModelRaw)) : FetchRec :=
  if api_key.isEmpty then
    ⟨openrouter_fallback_models, false, some "No API key".toList⟩
  else
    match resp with
    | .error e => ⟨openrouter_fallback_models, false, some e⟩
    | .ok (status, data) =>
      if status ≠ 200 then
        ⟨openrouter_fallback_models, false,
         some ("API error: ".toList ++ natStr status)⟩
      else
        let models := (data.filter keep_openrouter_model).map openrouter_entry
        if models.isEmpty then
          ⟨openrouter_fallback_models, false, some "No models found".toList⟩
        else ⟨models.take 50, true, none⟩

/-- `_list_openrouter_models` (app.py lines 205-299). -/
def list_openrouter_models (api_key : Str)
    (resp : Except Str (Nat × List ORModelRaw)) : ModelListing :=
  let r := fetch_openrouter_models api_key resp
  { models := r.models,
    source := if r.fetched then "openrouter_api".toList else "fallback".toList,
    provider := "openrouter".toList,
    error := r.error }

/-- The hardcoded local default model (app.py lines 308-314). -/
def local_default_models : List ModelEntry :=
  [⟨"gpt-3.5-turbo".toList, "Local Model".toList,
    "Currently loaded model on llama-server".toList⟩]

/-- A raw model object from the local llama-server `/models` payload. -/
structure LocalModelRaw where
  id : Option Str

/-- The per-model entry built by `_list_local_models`
(app.py lines 332-337). -/
def local_entry (m : LocalModelRaw) : ModelEntry :=
  { name := m.id.getD "gpt-3.5-turbo".toList,
    display_name := m.id.getD "Local Model".toList,
    description := "Locally running model".toList }

/-- The `_fetch_models` closure of `_list_local_models` (app.py lines
316-345): an exception, a non-200 status, or an empty payload degrade to
the hardcoded default with the triggering message. -/
def fetch_local_models (resp : Except Str (Nat × List LocalModelRaw)) : FetchRec :=
  match resp with
  | .error e => ⟨local_default_models, false, some e⟩
  | .ok (status, data) =>
    if status ≠ 200 then
      ⟨local_default_models, false, some ("API error: ".toList ++ natStr status)⟩
    else
      let models := data.map local_entry
      if models.isEmpty then
        ⟨local_default_models, false, some "No models found".toList⟩
      else ⟨models, true, none⟩

/-- `_list_local_models` (app.py lines 302-361). -/
def list_local_models (resp : Except Str (Nat × List LocalModelRaw)) : ModelListing :=
  let r := fetch_local_models resp
  { models := r.models,
    source := if r.fetched then "local_api".toList else "fallback".toList,
    provider := "local".toList,
    error := r.error }

/-- Concrete `json.loads` stand-in used for counterexample/witness
instantiations: accepts exactly the text `[1, 2]` (valid JSON that is not
an object). -/
def loads0 : Str → Except Str Str := fun s =>
  if s = "[1, 2]".toList then .ok s else .error "Expecting value".toList

/-- Concrete stand-in for the pydantic construction `self.schema(**data)`
on a non-object payload: raises with the message of the Python `TypeError`,
which does not contain the raw response text. -/
def ctor0 : Str → Except Str Unit := fun _ =>
  .error "argument after ** must be a mapping, not list".toList

/-- Concrete `json.loads` stand-in that always fails (malformed JSON). -/
def loads_fail : Str → Except Str Str := fun _ =>
  .error "Expecting value: line 1 column 1 (char 0)".toList

/-- A reflection oracle that always reports insufficient research, with one
follow-up query. -/
def always_insufficient : Nat → ReflectionOut := fun _ =>
  { is_sufficient := false, knowledge_gap := [], follow_up_queries := ["f".toList] }

/-! ## Support lemmas -/

theorem pyContains_infix_iff (p : Str) : ∀ s : Str, pyContains p s = true ↔ p <:+: s := by
  intro s
  induction s with
  | nil =>
    simp only [pyContains, List.isEmpty_iff]
    constructor
    · intro h; exact h ▸ List.infix_refl []
    · intro h; exact List.eq_nil_of_infix_nil h
  | cons c rest ih =>
    simp only [pyContains, Bool.or_eq_true, List.isPrefixOf_iff_prefix, ih,
      List.infix_cons_iff]

theorem dropWhile_append_of_all {p : Char → Bool} :
    ∀ {l₁ l₂ : Str}, l₁.all p = true → (l₁ ++ l₂).dropWhile p = l₂.dropWhile p := by
  intro l₁ l₂ h
  induction l₁ with
  | nil => rfl
  | cons a as ih =>
    simp only [List.all_cons, Bool.and_eq_true] at h
    simp only [List.cons_append, List.dropWhile_cons, h.1, if_true]
    exact ih h.2

theorem dropWhile_of_head_not {p : Char → Bool} {l : Str}
    (h : ∀ c, l.head? = some c → p c = false) : l.dropWhile p = l := by
  cases l with
  | nil => rfl
  | cons a as => simp [List.dropWhile_cons, h a rfl]

theorem head_not_of_dropWhile {p : Char → Bool} :
    ∀ (l : Str) (c : Char), (l.dropWhile p).head? = some c → p c = false := by
  intro l
  induction l with
  | nil => intro c h; simp [List.dropWhile] at h
  | cons a as ih =>
    intro c h
    by_cases hp : p a = true
    · rw [List.dropWhile_cons, if_pos hp] at h
      exact ih c h
    · rw [List.dropWhile_cons, if_neg hp] at h
      simp only [List.head?_cons, Option.some.injEq] at h
      subst h
      exact Bool.not_eq_true _ ▸ hp

theorem getLast_not_of_pyStrip :
    ∀ (s : Str) (c : Char), (pyStrip s).getLast? = some c → c.isWhitespace = false := by
  intro s c h
  rw [pyStrip, List.getLast?_reverse] at h
  exact head_not_of_dropWhile _ c h

theorem suffix_getLast_eq {l₁ l₂ : Str} (h : l₁ <:+ l₂) (hne : l₁ ≠ []) :
    l₂.getLast? = l₁.getLast? := by
  obtain ⟨r, rfl⟩ := h
  rw [← List.head?_reverse, ← List.head?_reverse, List.reverse_append,
    List.head?_append_of_ne_nil]
  simpa using hne

theorem head_not_of_pyStrip :
    ∀ (s : Str) (c : Char), (pyStrip s).head? = some c → c.isWhitespace = false := by
  intro s c h
  rw [pyStrip, List.head?_reverse] at h
  set u := s.dropWhile Char.isWhitespace with hu
  set w := u.reverse.dropWhile Char.isWhitespace with hw
  have hwne : w ≠ [] := by
    intro hnil
    rw [hnil] at h
    simp at h
  have hsuf : w <:+ u.reverse := List.dropWhile_suffix _
  rw [← suffix_getLast_eq hsuf hwne, List.getLast?_reverse] at h
  exact head_not_of_dropWhile _ c h

theorem pyStrip_eq_self {s : Str}
    (hh : ∀ c, s.head? = some c → c.isWhitespace = false)
    (hl : ∀ c, s.getLast? = some c → c.isWhitespace = false) : pyStrip s = s := by
  rw [pyStrip, dropWhile_of_head_not hh, dropWhile_of_head_not (by
    intro c hc
    rw [List.head?_reverse] at hc
    exact hl c hc), List.reverse_reverse]

theorem pyStrip_idem (s : Str) : pyStrip (pyStrip s) = pyStrip s :=
  pyStrip_eq_self (head_not_of_pyStrip s) (getLast_not_of_pyStrip s)

theorem pyStrip_sandwich {a b m : Str} (ha : a.all Char.isWhitespace = true)
    (hb : b.all Char.isWhitespace = true)
    (hh : ∀ c, m.head? = some c → c.isWhitespace = false)
    (hl : ∀ c, m.getLast? = some c → c.isWhitespace = false)
    (hm : m ≠ []) :
    pyStrip (a ++ m ++ b) = m := by
  rw [pyStrip, List.append_assoc, dropWhile_append_of_all ha]
  have h1 : (m ++ b).dropWhile Char.isWhitespace = m ++ b := by
    apply dropWhile_of_head_not
    intro c hc
    cases m with
    | nil => exact absurd rfl hm
    | cons x xs =>
      simp only [List.cons_append, List.head?_cons, Option.some.injEq] at hc
      exact hc ▸ hh x rfl
  rw [h1, List.reverse_append, dropWhile_append_of_all (by simpa using hb)]
  have h2 : m.reverse.dropWhile Char.isWhitespace = m.reverse := by
    apply dropWhile_of_head_not
    intro c hc
    rw [List.head?_reverse] at hc
    exact hl c hc
  rw [h2, List.reverse_reverse]

/-! ## Claim C3 -/

/-- C3 (amended): `finalize_answer` checks each source's `short_url`
against the progressively rewritten answer text, so provided earlier
sources' replacements neither erase nor introduce occurrences of any later
source's `short_url` (`preservesLaterB` — in particular this holds for
pairwise-distinct, non-overlapping short URLs whose canonical values do not
contain them), the emitted source list is exactly the sources whose
`short_url` occurs literally in the answer text, in order; each kept
source's short URL is replaced by its canonical `value` at its step, and
sources whose `short_url` does not occur are absent. -/
theorem c3_finalize_dedup_amended (t : Str) (sources : List SourceRec)
    (h : preservesLaterB t sources = true) :
    (finalize_dedup t sources).2 = sources.filter fun s => pyContains s.short_url t := by
  induction sources generalizing t with
  | nil => rfl
  | cons s rest ih =>
    simp only [preservesLaterB, Bool.and_eq_true, List.all_eq_true] at h
    obtain ⟨hall, hrec⟩ := h
    have hall' : ∀ s2 ∈ rest,
        pyContains s2.short_url (finalizeStepText t s) = pyContains s2.short_url t := by
      intro s2 hs2
      simpa using hall s2 hs2
    by_cases hc : pyContains s.short_url t = true
    · have hstep : finalizeStepText t s = pyReplace s.short_url s.value t := by
        rw [finalizeStepText, if_pos hc]
      have h2 : (finalize_dedup t (s :: rest)).2
          = s :: (finalize_dedup (finalizeStepText t s) rest).2 := by
        rw [finalize_dedup, if_pos hc, ← hstep]
      rw [h2, ih _ hrec, List.filter_congr hall']
      simp [List.filter_cons, hc]
    · have hstep : finalizeStepText t s = t := by
        rw [finalizeStepText, if_neg hc]
      have h2 : (finalize_dedup t (s :: rest)).2 = (finalize_dedup t rest).2 := by
        rw [finalize_dedup, if_neg hc]
      rw [h2, ih _ (hstep ▸ hrec)]
      simp [List.filter_cons, hc]

/-- C3 witness: a run of the finalize dedup on two well-behaved sources
(distinct, non-interfering short URLs) where the side condition holds by
computation and the kept list is exactly the filter by literal occurrence. -/
theorem c3_finalize_dedup_amended_witness :
    preservesLaterB "cite u1 end".toList
      [⟨"A".toList, "u1".toList, "v1".toList⟩, ⟨"B".toList, "u2".toList, "v2".toList⟩] = true
    ∧ (finalize_dedup "cite u1 end".toList
        [⟨"A".toList, "u1".toList, "v1".toList⟩, ⟨"B".toList, "u2".toList, "v2".toList⟩]).2
      = List.filter (fun s => pyContains s.short_url "cite u1 end".toList)
          [⟨"A".toList, "u1".toList, "v1".toList⟩, ⟨"B".toList, "u2".toList, "v2".toList⟩] :=
  ⟨by decide, c3_finalize_dedup_amended _ _ (by decide)⟩

/-- C3 counterexample: with sources `A` and `B` both carrying short URL
`u1` and answer text `u1`, `B`'s short URL occurs literally in the answer
text, yet `B` is absent from the emitted list (processing `A` already
rewrote the text), so finalize does not emit "exactly those sources whose
short_url occurs literally in the answer text". -/
theorem c3_counterexample :
    pyContains "u1".toList "u1".toList = true
    ∧ (finalize_dedup "u1".toList
        [⟨"A".toList, "u1".toList, "v".toList⟩, ⟨"B".toList, "u1".toList, "w".toList⟩]).2
      = [⟨"A".toList, "u1".toList, "v".toList⟩]
    ∧ ⟨"B".toList, "u1".toList, "w".toList⟩ ∉ (finalize_dedup "u1".toList
        [⟨"A".toList, "u1".toList, "v".toList⟩, ⟨"B".toList, "u1".toList, "w".toList⟩]).2 := by
  refine ⟨by decide, by decide, by decide⟩

/-! ## Claim C10 -/

/-- Helper for C10: along the dedup fold, if every already-replaced short
URL stays absent from every later intermediate text (`replacedStayGoneB`),
then the emitted sources have pairwise-distinct short URLs and none of them
carries a short URL from the `gone` accumulator. -/
theorem finalize_dedup_gone_invariant :
    ∀ (sources : List SourceRec) (t : Str) (gone : List Str),
      replacedStayGoneB t gone sources = true →
      (∀ u ∈ gone, pyContains u t = false) →
      ((finalize_dedup t sources).2.Pairwise fun a b => a.short_url ≠ b.short_url)
      ∧ ∀ s2 ∈ (finalize_dedup t sources).2, s2.short_url ∉ gone := by
  intro sources
  induction sources with
  | nil =>
    intro t gone _ _
    exact ⟨List.Pairwise.nil, by simp [finalize_dedup]⟩
  | cons s rest ih =>
    intro t gone h habs
    simp only [replacedStayGoneB, Bool.and_eq_true, List.all_eq_true] at h
    obtain ⟨hall, hrec⟩ := h
    by_cases hc : pyContains s.short_url t = true
    · have hstep : finalizeStepText t s = pyReplace s.short_url s.value t := by
        rw [finalizeStepText, if_pos hc]
      have hgone2 : ∀ u ∈ s.short_url :: gone,
          pyContains u (finalizeStepText t s) = false := by
        intro u hu
        have := hall u (by simpa [hc] using hu)
        simpa using this
      have hsg : s.short_url ∉ gone := by
        intro hin
        rw [habs s.short_url hin] at hc
        exact Bool.false_ne_true hc
      have h2 : (finalize_dedup t (s :: rest)).2
          = s :: (finalize_dedup (finalizeStepText t s) rest).2 := by
        rw [finalize_dedup, if_pos hc, hstep]
      have hrec' : replacedStayGoneB (finalizeStepText t s) (s.short_url :: gone) rest = true := by
        simpa [hc] using hrec
      obtain ⟨pw, hnotin⟩ := ih (finalizeStepText t s) (s.short_url :: gone) hrec' hgone2
      constructor
      · rw [h2]
        refine List.Pairwise.cons ?_ pw
        intro b hb heq
        exact (hnotin b hb) (heq ▸ List.mem_cons_self _ _)
      · rw [h2]
        intro s2 hs2
        rcases List.mem_cons.mp hs2 with h' | h'
        · exact h' ▸ hsg
        · exact fun hin => (hnotin s2 h') (List.mem_cons_of_mem _ hin)
    · have hstep : finalizeStepText t s = t := by
        rw [finalizeStepText, if_neg hc]
      have h2 : (finalize_dedup t (s :: rest)).2 = (finalize_dedup t rest).2 := by
        rw [finalize_dedup, if_neg hc]
      have hrec' : replacedStayGoneB t gone rest = true := by
        have := hrec
        simp only [hc] at this
        rwa [hstep] at this
      obtain ⟨pw, hnotin⟩ := ih t gone hrec' (by
        intro u hu
        have := hall u (by simpa [hc] using hu)
        rw [hstep] at this
        simpa using this)
      exact ⟨h2 ▸ pw, h2 ▸ hnotin⟩

/-- C10 (amended): if every replacement performed by the finalize dedup
removes all occurrences of the replaced `short_url` and no later
replacement reintroduces it (`replacedStayGoneB` with empty accumulator),
then once a source with a given `short_url` is emitted no later source with
that same `short_url` is, and the emitted source list has pairwise-distinct
`short_url` values. -/
theorem c10_dedup_distinct_amended (t : Str) (sources : List SourceRec)
    (h : replacedStayGoneB t [] sources = true) :
    (finalize_dedup t sources).2.Pairwise fun a b => a.short_url ≠ b.short_url :=
  (finalize_dedup_gone_invariant sources t [] h (by intro u hu; cases hu)).1

/-- C10 witness: two sources sharing the short URL `u`, where the first
replacement really removes every occurrence; the side condition holds by
computation and the amended theorem yields the pairwise-distinct emitted
list (here only the first duplicate survives). -/
theorem c10_dedup_distinct_amended_witness :
    replacedStayGoneB "u".toList []
      [⟨"A".toList, "u".toList, "v".toList⟩, ⟨"B".toList, "u".toList, "w".toList⟩] = true
    ∧ ((finalize_dedup "u".toList
        [⟨"A".toList, "u".toList, "v".toList⟩,
         ⟨"B".toList, "u".toList, "w".toList⟩]).2.Pairwise
        fun a b => a.short_url ≠ b.short_url) :=
  ⟨by decide, c10_dedup_distinct_amended _ _ (by decide)⟩

/-- C10 counterexample: source `A` has short URL `u` whose canonical value
`xu` itself contains `u`; replacing reintroduces the short URL, so the
later duplicate `B` (same `short_url`) is *also* emitted: the emitted list
contains both duplicates and its short URLs are not pairwise distinct. -/
theorem c10_counterexample :
    (finalize_dedup "u".toList
      [⟨"A".toList, "u".toList, "xu".toList⟩, ⟨"B".toList, "u".toList, "w".toList⟩]).2
      = [⟨"A".toList, "u".toList, "xu".toList⟩, ⟨"B".toList, "u".toList, "w".toList⟩]
    ∧ ¬ ((finalize_dedup "u".toList
        [⟨"A".toList, "u".toList, "xu".toList⟩,
         ⟨"B".toList, "u".toList, "w".toList⟩]).2.map (·.short_url)).Nodup := by
  refine ⟨by decide, by decide⟩

/-! ## Claims C1 and C2: the research loop -/

/-- Routing characterisation of `evaluate_research`: it returns
`finalize_answer` exactly when `is_sufficient` holds or the loop count has
reached the resolved bound. -/
theorem eval_finalize_iff (ru : ReflectionUpdate) (mo : Option Int) (cm : Int) :
    evaluate_research ru mo cm = RouteDecision.finalize_answer
      ↔ (ru.is_sufficient = true ∨ ru.research_loop_count ≥ mo.getD cm) := by
  simp only [evaluate_research]
  by_cases hfin : (ru.is_sufficient || decide (ru.research_loop_count ≥ mo.getD cm)) = true
  · rw [if_pos hfin]
    simp only [Bool.or_eq_true, decide_eq_true_eq] at hfin
    simpa using hfin
  · rw [if_neg hfin]
    simp only [Bool.or_eq_true, decide_eq_true_eq] at hfin
    simpa using hfin

/-- Routing characterisation of `evaluate_research` on the loop branch:
otherwise it dispatches one task per follow-up query, ids continuing from
`number_of_ran_queries`. -/
theorem eval_sends_eq (ru : ReflectionUpdate) (mo : Option Int) (cm : Int)
    (h : ¬(ru.is_sufficient = true ∨ ru.research_loop_count ≥ mo.getD cm)) :
    evaluate_research ru mo cm = RouteDecision.web_research_sends
      (ru.follow_up_queries.enum.map fun p =>
        { search_query := p.2, id := ru.number_of_ran_queries + p.1 }) := by
  simp only [evaluate_research]
  rw [if_neg]
  simpa using h

/-- Unfolding equation for one cycle of `run_waves`. -/
theorem run_waves_succ (reflections : Nat → ReflectionOut) (mo : Option Int) (cm : Int)
    (fuel : Nat) (sq : List Str) (cnt : Int) (tasks : List SendTask)
    (waves : List (List SendTask)) :
    run_waves reflections mo cm (fuel + 1) sq cnt tasks waves
      = (let sq2 := sq ++ tasks.map (·.search_query)
         let ru := reflection_update (some cnt) sq2 (reflections cnt.toNat)
         match evaluate_research ru mo cm with
         | .finalize_answer => some (ru.research_loop_count, waves ++ [tasks])
         | .web_research_sends ts =>
           run_waves reflections mo cm fuel sq2 ru.research_loop_count ts
             (waves ++ [tasks])) := rfl

/-- Helper for C1: with fuel exceeding the remaining loop budget,
`run_waves` reaches `finalize_answer`, and the loop count at finalize is at
most `max (resolved bound) (entry count + 1)`. -/
theorem run_waves_total_le (reflections : Nat → ReflectionOut) (mo : Option Int) (cm : Int) :
    ∀ (fuel : Nat) (sq : List Str) (cnt : Int) (tasks : List SendTask)
      (waves : List (List SendTask)),
      (mo.getD cm - cnt).toNat < fuel →
      ∃ c ws, run_waves reflections mo cm fuel sq cnt tasks waves = some (c, ws)
        ∧ c ≤ max (mo.getD cm) (cnt + 1) := by
  intro fuel
  induction fuel with
  | zero => intro sq cnt tasks waves h; omega
  | succ fuel ih =>
    intro sq cnt tasks waves h
    by_cases hfin : ((reflections cnt.toNat).is_sufficient = true ∨
        cnt + 1 ≥ mo.getD cm)
    · refine ⟨cnt + 1, waves ++ [tasks], ?_, le_max_right _ _⟩
      have he : evaluate_research
          (reflection_update (some cnt) (sq ++ tasks.map (·.search_query))
            (reflections cnt.toNat)) mo cm = RouteDecision.finalize_answer :=
        (eval_finalize_iff _ _ _).2 (by simpa [reflection_update] using hfin)
      rw [run_waves_succ]
      simp only [reflection_update, Option.getD_some] at he ⊢
      simp only [he]
    · have he := eval_sends_eq
        (reflection_update (some cnt) (sq ++ tasks.map (·.search_query))
          (reflections cnt.toNat)) mo cm (by simpa [reflection_update] using hfin)
      have hlt : cnt + 1 < mo.getD cm := by
        push_neg at hfin
        exact hfin.2
      obtain ⟨c, ws, hrun, hle⟩ := ih (sq ++ tasks.map (·.search_query)) (cnt + 1)
        ((reflections cnt.toNat).follow_up_queries.enum.map fun p =>
          { search_query := p.2,
            id := (sq ++ tasks.map (·.search_query)).length + p.1 })
        (waves ++ [tasks]) (by omega)
      refine ⟨c, ws, ?_, ?_⟩
      · rw [run_waves_succ]
        simp only [reflection_update, Option.getD_some] at he ⊢
        simp only [he]
        exact hrun
      · have hM : cnt + 1 + 1 ≤ mo.getD cm := by omega
        rw [max_eq_left hM] at hle
        exact le_trans hle (le_max_left _ _)

/-- C1 (amended): `evaluate_research` routes to `finalize_answer` iff
`is_sufficient` is true or `research_loop_count ≥ max_research_loops`
(per-run override when present, else the configured default); `reflection`
increments the loop count exactly once per cycle; and every run reaches
finalize — with loop count at finalize at most
`max (max_research_loops) 1`.  When `max_research_loops ≥ 1` (the
realistic configurations; the source default is 2) the count at finalize
never exceeds `max_research_loops`; a non-positive bound is still exceeded
by the forced first reflection (see the counterexample). -/
theorem c1_loop_bound_amended :
    (∀ (ru : ReflectionUpdate) (mo : Option Int) (cm : Int),
        evaluate_research ru mo cm = RouteDecision.finalize_answer
          ↔ (ru.is_sufficient = true ∨ ru.research_loop_count ≥ mo.getD cm))
    ∧ (∀ (cnt : Int) (sq : List Str) (v : ReflectionOut),
        (reflection_update (some cnt) sq v).research_loop_count = cnt + 1)
    ∧ (∀ (iq : List Str) (reflections : Nat → ReflectionOut) (mo : Option Int)
        (cm : Int),
        ∃ c ws, run_research iq reflections mo cm = some (c, ws)
          ∧ c ≤ max (mo.getD cm) 1
          ∧ (1 ≤ mo.getD cm → c ≤ mo.getD cm)) := by
  refine ⟨eval_finalize_iff, fun cnt sq v => rfl, ?_⟩
  intro iq reflections mo cm
  obtain ⟨c, ws, hrun, hle⟩ := run_waves_total_le reflections mo cm
    (research_fuel mo cm) iq 0 (continue_to_web_research iq) []
    (by unfold research_fuel; omega)
  refine ⟨c, ws, hrun, by simpa using hle, fun h1 => ?_⟩
  have : max (mo.getD cm) (0 + 1) = mo.getD cm := max_eq_left (by omega)
  rw [this] at hle
  exact hle

/-- C1 witness: a run with the always-insufficient reflection oracle and
the default bound finalizes with loop count within the bound. -/
theorem c1_loop_bound_amended_witness :
    ∃ c ws, run_research ["q".toList] always_insufficient none 2 = some (c, ws)
      ∧ c ≤ max ((none : Option Int).getD 2) 1
      ∧ (1 ≤ (none : Option Int).getD 2 → c ≤ (none : Option Int).getD 2) :=
  c1_loop_bound_amended.2.2 ["q".toList] always_insufficient none 2

/-- C1 counterexample: with a per-run override `max_research_loops = 0` and
an always-insufficient reflection, the run finalizes with
`research_loop_count = 1 > 0 = max_research_loops`: the loop count at
finalize time *does* exceed the bound, because reflection always runs (and
increments) once before the first routing decision. -/
theorem c1_counterexample :
    run_research ["q".toList] always_insufficient (some 0) 2
      = some (1, [[⟨"q".toList, 0⟩]])
    ∧ ¬((1 : Int) ≤ (some (0 : Int)).getD 2) := by
  refine ⟨by decide, by decide⟩

/-- Task ids of an initial-wave dispatch, over `enumFrom`. -/
theorem sendtask_ids_cont (l : List Str) :
    ∀ n, ((l.enumFrom n).map fun p => SendTask.mk p.2 p.1).map (·.id)
      = List.range' n l.length := by
  induction l with
  | nil => intro n; rfl
  | cons x xs ih =>
    intro n
    simp only [List.enumFrom_cons, List.map_cons, List.length_cons,
      List.range'_succ, ih (n + 1)]

/-- Task queries of an initial-wave dispatch, over `enumFrom`. -/
theorem sendtask_qs_cont (l : List Str) :
    ∀ n, ((l.enumFrom n).map fun p => SendTask.mk p.2 p.1).map (·.search_query) = l := by
  induction l with
  | nil => intro n; rfl
  | cons x xs ih =>
    intro n
    simp only [List.enumFrom_cons, List.map_cons, ih (n + 1)]

/-- Task ids of a follow-up dispatch, over `enumFrom`. -/
theorem sendtask_ids_follow (nrq : Nat) (l : List Str) :
    ∀ n, ((l.enumFrom n).map fun p => SendTask.mk p.2 (nrq + p.1)).map (·.id)
      = List.range' (nrq + n) l.length := by
  induction l with
  | nil => intro n; rfl
  | cons x xs ih =>
    intro n
    simp only [List.enumFrom_cons, List.map_cons, List.length_cons,
      List.range'_succ, ih (n + 1), Nat.add_assoc]

/-- Task queries of a follow-up dispatch, over `enumFrom`. -/
theorem sendtask_qs_follow (nrq : Nat) (l : List Str) :
    ∀ n, ((l.enumFrom n).map fun p => SendTask.mk p.2 (nrq + p.1)).map (·.search_query)
      = l := by
  induction l with
  | nil => intro n; rfl
  | cons x xs ih =>
    intro n
    simp only [List.enumFrom_cons, List.map_cons, ih (n + 1)]

/-- Helper for C2: along `run_waves`, if the already-issued task ids are
pairwise distinct and all below `len(search_query) + len(current wave)`,
every wave list returned at finalize has pairwise-distinct ids. -/
theorem run_waves_ids_nodup (reflections : Nat → ReflectionOut) (mo : Option Int)
    (cm : Int) :
    ∀ (fuel : Nat) (sq : List Str) (cnt : Int) (tasks : List SendTask)
      (waves : List (List SendTask)),
      ((waves.flatten ++ tasks).map (·.id)).Nodup →
      (∀ s ∈ waves.flatten ++ tasks, s.id < sq.length + tasks.length) →
      ∀ c ws, run_waves reflections mo cm fuel sq cnt tasks waves = some (c, ws) →
        ((ws.flatten).map (·.id)).Nodup := by
  intro fuel
  induction fuel with
  | zero =>
    intro sq cnt tasks waves _ _ c ws hrun
    exact absurd hrun (by simp [run_waves])
  | succ fuel ih =>
    intro sq cnt tasks waves hnd hbd c ws hrun
    rw [run_waves_succ] at hrun
    by_cases hfin : ((reflections cnt.toNat).is_sufficient = true ∨
        cnt + 1 ≥ mo.getD cm)
    · have he : evaluate_research
          (reflection_update (some cnt) (sq ++ tasks.map (·.search_query))
            (reflections cnt.toNat)) mo cm = RouteDecision.finalize_answer :=
        (eval_finalize_iff _ _ _).2 (by simpa [reflection_update] using hfin)
      simp only [reflection_update, Option.getD_some] at he hrun
      simp only [he] at hrun
      have h2 : ws = waves ++ [tasks] := by
        have h1 := Option.some.inj hrun
        exact (congrArg Prod.snd h1).symm
      subst h2
      simpa [List.flatten_append] using hnd
    · have he := eval_sends_eq
        (reflection_update (some cnt) (sq ++ tasks.map (·.search_query))
          (reflections cnt.toNat)) mo cm (by simpa [reflection_update] using hfin)
      simp only [reflection_update, Option.getD_some] at he hrun
      simp only [he] at hrun
      have hsq2len : (sq ++ tasks.map (·.search_query)).length
          = sq.length + tasks.length := by simp
      have htsids : ((reflections cnt.toNat).follow_up_queries.enum.map fun p =>
            (⟨p.2, (sq ++ tasks.map (·.search_query)).length + p.1⟩ : SendTask)).map (·.id)
          = List.range' (sq ++ tasks.map (·.search_query)).length
              (reflections cnt.toNat).follow_up_queries.length := by
        have := sendtask_ids_follow (sq ++ tasks.map (·.search_query)).length
          (reflections cnt.toNat).follow_up_queries 0
        simpa [List.enum_eq_enumFrom] using this
      refine ih _ _ _ _ ?_ ?_ c ws hrun
      · have hflat : (waves ++ [tasks]).flatten = waves.flatten ++ tasks := by
          simp [List.flatten_append]
        rw [hflat, List.map_append]
        apply List.Nodup.append hnd
        · rw [htsids]
          exact List.nodup_range' _ _
        · intro x hx hx2
          rw [htsids, List.mem_range'] at hx2
          obtain ⟨i, -, rfl⟩ := hx2
          simp only [List.mem_map] at hx
          obtain ⟨s, hs, hsid⟩ := hx
          have := hbd s hs
          omega
      · intro s hs
        have hflat : (waves ++ [tasks]).flatten = waves.flatten ++ tasks := by
          simp [List.flatten_append]
        rw [hflat, List.append_assoc] at hs
        rcases List.mem_append.mp hs with hold1 | hrest
        · have := hbd s (List.mem_append_left _ hold1)
          omega
        · rcases List.mem_append.mp hrest with hold2 | hnew
          · have := hbd s (List.mem_append_right _ hold2)
            omega
          · have hmem : s.id ∈ ((reflections cnt.toNat).follow_up_queries.enum.map
                fun p =>
                  (⟨p.2, (sq ++ tasks.map (·.search_query)).length + p.1⟩ : SendTask)).map
                (·.id) := List.mem_map_of_mem _ hnew
            rw [htsids, List.mem_range'] at hmem
            obtain ⟨i, hik, hieq⟩ := hmem
            have hlen : ((reflections cnt.toNat).follow_up_queries.enum.map fun p =>
                (⟨p.2, (sq ++ tasks.map (·.search_query)).length + p.1⟩ : SendTask)).length
                = (reflections cnt.toNat).follow_up_queries.length := by
              simp
            omega

/-- C2 (amended): each web_research task id is the query's position in its
wave offset by the wave's numbering base — `0` for the initial wave from
`continue_to_web_research`, and `number_of_ran_queries` (which `reflection`
sets to `len(state["search_query"])`) for follow-up waves from
`evaluate_research` — and all task ids issued within one run are pairwise
distinct.  Note `len(state["search_query"])` is *not* the count of
previously run queries: the accumulator receives `generate_query`'s whole
list once plus one copy per executed search, so the offset equals
(initial generated count) + (queries run so far); see the counterexample. -/
theorem c2_task_ids_amended :
    (∀ qs : List Str,
        (continue_to_web_research qs).map (·.id) = List.range' 0 qs.length
        ∧ (continue_to_web_research qs).map (·.search_query) = qs)
    ∧ (∀ (ru : ReflectionUpdate) (mo : Option Int) (cm : Int) (ts : List SendTask),
        evaluate_research ru mo cm = RouteDecision.web_research_sends ts →
        ts.map (·.id)
          = List.range' ru.number_of_ran_queries ru.follow_up_queries.length
        ∧ ts.map (·.search_query) = ru.follow_up_queries)
    ∧ (∀ (cnt : Option Int) (sq : List Str) (v : ReflectionOut),
        (reflection_update cnt sq v).number_of_ran_queries = sq.length)
    ∧ (∀ (iq : List Str) (reflections : Nat → ReflectionOut) (mo : Option Int)
        (cm : Int) (c : Int) (ws : List (List SendTask)),
        run_research iq reflections mo cm = some (c, ws) →
        ((ws.flatten).map (·.id)).Nodup) := by
  refine ⟨?_, ?_, fun cnt sq v => rfl, ?_⟩
  · intro qs
    constructor
    · have := sendtask_ids_cont qs 0
      simpa [continue_to_web_research, List.enum_eq_enumFrom] using this
    · have := sendtask_qs_cont qs 0
      simpa [continue_to_web_research, List.enum_eq_enumFrom] using this
  · intro ru mo cm ts h
    by_cases hfin : (ru.is_sufficient = true ∨ ru.research_loop_count ≥ mo.getD cm)
    · rw [(eval_finalize_iff ru mo cm).2 hfin] at h
      exact absurd h (by simp)
    · rw [eval_sends_eq ru mo cm hfin] at h
      have hts := RouteDecision.web_research_sends.inj h
      subst hts
      constructor
      · have := sendtask_ids_follow ru.number_of_ran_queries ru.follow_up_queries 0
        simpa [List.enum_eq_enumFrom] using this
      · have := sendtask_qs_follow ru.number_of_ran_queries ru.follow_up_queries 0
        simpa [List.enum_eq_enumFrom] using this
  · intro iq reflections mo cm c ws hrun
    refine run_waves_ids_nodup reflections mo cm (research_fuel mo cm) iq 0
      (continue_to_web_research iq) [] ?_ ?_ c ws hrun
    · have := sendtask_ids_cont iq 0
      have h0 : (continue_to_web_research iq).map (·.id) = List.range' 0 iq.length := by
        simpa [continue_to_web_research, List.enum_eq_enumFrom] using this
      simpa [h0] using List.nodup_range' 0 iq.length
    · intro s hs
      simp only [List.flatten_nil, List.nil_append] at hs
      have hmem : s.id ∈ (continue_to_web_research iq).map (·.id) :=
        List.mem_map_of_mem _ hs
      have h0 : (continue_to_web_research iq).map (·.id) = List.range' 0 iq.length := by
        have := sendtask_ids_cont iq 0
        simpa [continue_to_web_research, List.enum_eq_enumFrom] using this
      rw [h0, List.mem_range'] at hmem
      obtain ⟨i, hik, hieq⟩ := hmem
      omega

/-- C2 witness: ids and queries of a concrete follow-up dispatch, and
distinctness of all ids of a concrete two-wave run, via the amended
theorem. -/
theorem c2_task_ids_amended_witness :
    ((continue_to_web_research ["a".toList, "b".toList]).map (·.id)
        = List.range' 0 2
      ∧ (continue_to_web_research ["a".toList, "b".toList]).map (·.search_query)
        = ["a".toList, "b".toList])
    ∧ (((run_research ["q".toList] always_insufficient none 2).map
          (fun r => ((r.2.flatten).map (·.id)).Nodup)).getD False) := by
  constructor
  · exact c2_task_ids_amended.1 ["a".toList, "b".toList]
  · have hrun : run_research ["q".toList] always_insufficient none 2
        = some (2, [[⟨"q".toList, 0⟩], [⟨"f".toList, 2⟩]]) := by decide
    rw [hrun]
    exact c2_task_ids_amended.2.2.2 ["q".toList] always_insufficient none 2
      2 [[⟨"q".toList, 0⟩], [⟨"f".toList, 2⟩]] hrun

/-- C2 counterexample: in a run with one initial query and one follow-up
query, exactly one query has been run before the follow-up wave, so the
claim's "position offset by the count of previously run queries" predicts
task id `0 + 1 = 1`; the code issues id `2`, because `search_query` then
holds two entries (the generated list appended by `generate_query` plus the
copy appended by the executed web_research task). -/
theorem c2_counterexample :
    run_research ["q".toList] always_insufficient none 2
      = some (2, [[⟨"q".toList, 0⟩], [⟨"f".toList, 2⟩]])
    ∧ (2 : Nat) ≠ 0 + 1 := by
  refine ⟨by decide, by decide⟩

/-! ## Claim C4: fence stripping -/

theorem prefix_head_eq {p l : Str} (h : p <+: l) (hp : p ≠ []) : l.head? = p.head? := by
  obtain ⟨r, rfl⟩ := h
  cases p with
  | nil => exact absurd rfl hp
  | cons c cs => rfl

/-- `structured_invoke` depends on the raw response only through
`extract_json_content`. -/
theorem structured_invoke_congr {J R : Type} (loads : Str → Except Str J)
    (schemaCtor : J → Except Str R) {r1 r2 : Str}
    (h : extract_json_content r1 = extract_json_content r2) :
    structured_invoke loads schemaCtor r1 = structured_invoke loads schemaCtor r2 := by
  unfold structured_invoke
  rw [h]

/-- Fence stripping on a response wrapped in ```json fences with
surrounding whitespace recovers the stripped payload. -/
theorem extract_json_wrapped_json (a b t : Str)
    (ha : a.all Char.isWhitespace = true) (hb : b.all Char.isWhitespace = true)
    (ht : t ≠ []) (hhd : t.head? ≠ some '`') :
    extract_json_content (a ++ ("```json".toList ++ t ++ "```".toList) ++ b)
      = pyStrip t := by
  have hassoc : "```json".toList ++ t ++ "```".toList
      = "```json".toList ++ (t ++ "```".toList) := by
    rw [List.append_assoc]
  have hlast : ("```json".toList ++ t ++ "```".toList).getLast? = some '`' := by
    have hsplit : "```json".toList ++ t ++ "```".toList
        = ("```json".toList ++ t ++ ['`', '`']) ++ ['`'] := by
      simp [List.append_assoc]
    rw [hsplit, List.getLast?_concat]
  have hstrip : pyStrip (a ++ ("```json".toList ++ t ++ "```".toList) ++ b)
      = "```json".toList ++ t ++ "```".toList := by
    refine pyStrip_sandwich ha hb ?_ ?_ (by simp)
    · intro c hc
      rw [show ("```json".toList ++ t ++ "```".toList).head? = some '`' from rfl] at hc
      cases hc
      decide
    · intro c hc
      rw [hlast] at hc
      cases hc
      decide
  have hpre1 : pyStartswith "```json".toList
      ("```json".toList ++ (t ++ "```".toList)) = true := by
    rw [pyStartswith, List.isPrefixOf_iff_prefix]
    exact List.prefix_append _ _
  have hpre2 : ¬ (pyStartswith "```".toList (t ++ "```".toList) = true) := by
    rw [pyStartswith, List.isPrefixOf_iff_prefix]
    intro hpre
    have hh2 := prefix_head_eq hpre (by decide)
    rw [List.head?_append_of_ne_nil t ht] at hh2
    exact hhd (by simpa using hh2)
  have hend : pyEndswith "```".toList (t ++ "```".toList) = true := by
    rw [pyEndswith, List.isSuffixOf_iff_suffix]
    exact List.suffix_append _ _
  simp only [extract_json_content, hstrip]
  rw [hassoc, if_pos hpre1,
    List.drop_left' (by decide : ("```json".toList).length = 7),
    if_neg hpre2, if_pos hend,
    show (t ++ "```".toList).length - 3 = t.length from by simp,
    List.take_left]

/-- Fence stripping on a response wrapped in plain ``` fences with
surrounding whitespace recovers the stripped payload. -/
theorem extract_json_wrapped_plain (a b t : Str)
    (ha : a.all Char.isWhitespace = true) (hb : b.all Char.isWhitespace = true)
    (ht : t ≠ []) (_hhd : t.head? ≠ some '`') (hhj : t.head? ≠ some 'j') :
    extract_json_content (a ++ ("```".toList ++ t ++ "```".toList) ++ b)
      = pyStrip t := by
  have hassoc : "```".toList ++ t ++ "```".toList
      = "```".toList ++ (t ++ "```".toList) := by
    rw [List.append_assoc]
  have hlast : ("```".toList ++ t ++ "```".toList).getLast? = some '`' := by
    have hsplit : "```".toList ++ t ++ "```".toList
        = ("```".toList ++ t ++ ['`', '`']) ++ ['`'] := by
      simp [List.append_assoc]
    rw [hsplit, List.getLast?_concat]
  have hstrip : pyStrip (a ++ ("```".toList ++ t ++ "```".toList) ++ b)
      = "```".toList ++ t ++ "```".toList := by
    refine pyStrip_sandwich ha hb ?_ ?_ (by simp)
    · intro c hc
      rw [show ("```".toList ++ t ++ "```".toList).head? = some '`' from rfl] at hc
      cases hc
      decide
    · intro c hc
      rw [hlast] at hc
      cases hc
      decide
  have hpre1 : ¬ (pyStartswith "```json".toList
      ("```".toList ++ (t ++ "```".toList)) = true) := by
    rw [pyStartswith, List.isPrefixOf_iff_prefix]
    intro hpre
    rw [show "```json".toList = "```".toList ++ "json".toList from rfl,
      List.prefix_append_right_inj] at hpre
    have hh2 := prefix_head_eq hpre (by decide)
    rw [List.head?_append_of_ne_nil t ht] at hh2
    exact hhj (by simpa using hh2)
  have hpre2 : pyStartswith "```".toList
      ("```".toList ++ (t ++ "```".toList)) = true := by
    rw [pyStartswith, List.isPrefixOf_iff_prefix]
    exact List.prefix_append _ _
  have hend : pyEndswith "```".toList (t ++ "```".toList) = true := by
    rw [pyEndswith, List.isSuffixOf_iff_suffix]
    exact List.suffix_append _ _
  simp only [extract_json_content, hstrip]
  rw [hassoc, if_neg hpre1, if_pos hpre2,
    List.drop_left' (by decide : ("```".toList).length = 3),
    if_pos hend,
    show (t ++ "```".toList).length - 3 = t.length from by simp,
    List.take_left]

/-- Fence stripping on an unfenced payload (no leading or trailing
backticks once stripped) is just `strip`. -/
theorem extract_json_direct (t : Str)
    (hsh : (pyStrip t).head? ≠ some '`')
    (hsl : (pyStrip t).getLast? ≠ some '`') :
    extract_json_content t = pyStrip t := by
  have hpre1 : ¬ (pyStartswith "```json".toList (pyStrip t) = true) := by
    rw [pyStartswith, List.isPrefixOf_iff_prefix]
    intro hpre
    exact hsh ((prefix_head_eq hpre (by decide)).trans rfl)
  have hpre2 : ¬ (pyStartswith "```".toList (pyStrip t) = true) := by
    rw [pyStartswith, List.isPrefixOf_iff_prefix]
    intro hpre
    exact hsh ((prefix_head_eq hpre (by decide)).trans rfl)
  have hend : ¬ (pyEndswith "```".toList (pyStrip t) = true) := by
    rw [pyEndswith, List.isSuffixOf_iff_suffix]
    intro hsuf
    exact hsl ((suffix_getLast_eq hsuf (by decide)).trans rfl)
  simp only [extract_json_content]
  rw [if_neg hpre1, if_neg hpre2, if_neg hend, pyStrip_idem]

/-- C4 (confirmed): for every payload `t` shaped like a JSON text (it is
non-empty and neither starts with a backtick or `j` nor, once stripped,
starts or ends with a backtick — true of every JSON value, which begins
with a brace, bracket, quote, digit, sign or keyword), the structured
wrapper parses `t` wrapped in ```json or ``` Markdown fences with
surrounding whitespace exactly as it parses the unfenced `t`, for every
`json.loads` and schema-constructor oracle. -/
theorem c4_fenced_parse_confirmed {J R : Type} (loads : Str → Except Str J)
    (schemaCtor : J → Except Str R) (a b t : Str)
    (ha : a.all Char.isWhitespace = true) (hb : b.all Char.isWhitespace = true)
    (ht : t ≠ []) (hhd : t.head? ≠ some '`') (hhj : t.head? ≠ some 'j')
    (hsh : (pyStrip t).head? ≠ some '`')
    (hsl : (pyStrip t).getLast? ≠ some '`') :
    structured_invoke loads schemaCtor
        (a ++ ("```json".toList ++ t ++ "```".toList) ++ b)
      = structured_invoke loads schemaCtor t
    ∧ structured_invoke loads schemaCtor
        (a ++ ("```".toList ++ t ++ "```".toList) ++ b)
      = structured_invoke loads schemaCtor t :=
  ⟨structured_invoke_congr loads schemaCtor
      ((extract_json_wrapped_json a b t ha hb ht hhd).trans
        (extract_json_direct t hsh hsl).symm),
   structured_invoke_congr loads schemaCtor
      ((extract_json_wrapped_plain a b t ha hb ht hhd hhj).trans
        (extract_json_direct t hsh hsl).symm)⟩

/-- C4 witness: the JSON text `[1, 2]` fenced with ```json (and with
plain ```) parses identically to the unfenced text, instantiated with
concrete oracles. -/
theorem c4_fenced_parse_confirmed_witness :
    structured_invoke (fun s => (Except.ok s : Except Str Str))
        (fun s => (Except.ok s : Except Str Str))
        (" \n".toList ++ ("```json".toList ++ "\n[1, 2]\n".toList ++ "```".toList)
          ++ " ".toList)
      = structured_invoke (fun s => (Except.ok s : Except Str Str))
        (fun s => (Except.ok s : Except Str Str)) "\n[1, 2]\n".toList
    ∧ structured_invoke (fun s => (Except.ok s : Except Str Str))
        (fun s => (Except.ok s : Except Str Str))
        (" \n".toList ++ ("```".toList ++ "\n[1, 2]\n".toList ++ "```".toList)
          ++ " ".toList)
      = structured_invoke (fun s => (Except.ok s : Except Str Str))
        (fun s => (Except.ok s : Except Str Str)) "\n[1, 2]\n".toList :=
  c4_fenced_parse_confirmed (fun s => Except.ok s) (fun s => Except.ok s)
    " \n".toList " ".toList "\n[1, 2]\n".toList
    (by decide) (by decide) (by decide) (by decide) (by decide) (by decide) (by decide)

/-! ## Claim C5: search failure degrades -/

/-- C5 (confirmed): a failing external search call (any exception from the
Exa client) degrades to the empty result list inside the search layer; the
formatter turns the empty list into `("No search results found.", [])`; the
web_research node still returns a well-formed state update (no error,
empty sources, the summarising LLM runs over the degraded text); and the
graph's `web_research → reflection` edge is unconditional, so the run
proceeds to reflection. -/
theorem c5_search_failure_degrades {σ : Type} (e : Str) (query : Str) (qid : Nat)
    (key : Str) (llm : Str → Str) (hkey : key.isEmpty = false) :
    exa_search (σ := σ) (.error e) = []
    ∧ format_exa_results_for_llm ([] : List (SearchResultRec σ)) qid
        = ("No search results found.".toList, [])
    ∧ web_research_exa (σ := σ) "openrouter".toList key (.error e) llm
        ⟨query, qid⟩
      = .ok { sources_gathered := [],
              search_query := [query],
              web_research_result :=
                [llm (summary_prompt query "No search results found.".toList)] }
    ∧ ("web_research".toList, "reflection".toList) ∈ static_edges := by
  refine ⟨rfl, rfl, ?_, by simp [static_edges]⟩
  simp [web_research_exa, get_search_provider, hkey, exa_search,
    format_exa_results_for_llm]

/-- C5 witness: the degraded update at a concrete key and query. -/
theorem c5_search_failure_degrades_witness :
    exa_search (σ := Unit) (.error "connection refused".toList) = []
    ∧ format_exa_results_for_llm ([] : List (SearchResultRec Unit)) 0
        = ("No search results found.".toList, [])
    ∧ web_research_exa (σ := Unit) "openrouter".toList "k".toList
        (.error "connection refused".toList) (fun _ => "summary".toList)
        ⟨"q".toList, 0⟩
      = .ok { sources_gathered := [],
              search_query := ["q".toList],
              web_research_result :=
                [(fun _ => "summary".toList)
                  (summary_prompt "q".toList "No search results found.".toList)] }
    ∧ ("web_research".toList, "reflection".toList) ∈ static_edges :=
  c5_search_failure_degrades "connection refused".toList "q".toList 0 "k".toList
    (fun _ => "summary".toList) (by decide)

/-! ## Claim C6: credential check location -/

/-- C6 (amended): the missing-Exa-credential check *is* performed at
search-provider construction time (`get_search_provider` raises for an
empty key on the `openrouter`/`local` providers), but that construction is
invoked inside each `web_research` node, so every web_research call with a
missing key fails there with the configuration `ValueError`; module-level
initialisation performs no such check and never raises. -/
theorem c6_credential_check_amended (key : Str) (hkey : key = []) :
    get_search_provider "openrouter".toList key
      = .error "Exa API key is required for OpenRouter and local providers".toList
    ∧ get_search_provider "local".toList key
      = .error "Exa API key is required for OpenRouter and local providers".toList
    ∧ (∀ (σ : Type) (outcome : Except Str (List (ExaRawResult σ)))
        (llm : Str → Str) (st : WebSearchStateRec),
        web_research_exa "openrouter".toList key outcome llm st
          = .error "Exa API key is required for OpenRouter and local providers".toList)
    ∧ (∀ (σ : Type) (outcome : Except Str (List (ExaRawResult σ)))
        (llm : Str → Str) (st : WebSearchStateRec),
        web_research_exa "local".toList key outcome llm st
          = .error "Exa API key is required for OpenRouter and local providers".toList)
    ∧ graph_module_init "openrouter".toList key = .ok () := by
  subst hkey
  exact ⟨rfl, rfl, fun σ outcome llm st => rfl, fun σ outcome llm st => rfl, rfl⟩

/-- C6 witness: the amended statement at the empty key. -/
theorem c6_credential_check_amended_witness :
    get_search_provider "openrouter".toList []
      = .error "Exa API key is required for OpenRouter and local providers".toList
    ∧ get_search_provider "local".toList []
      = .error "Exa API key is required for OpenRouter and local providers".toList
    ∧ (∀ (σ : Type) (outcome : Except Str (List (ExaRawResult σ)))
        (llm : Str → Str) (st : WebSearchStateRec),
        web_research_exa "openrouter".toList [] outcome llm st
          = .error "Exa API key is required for OpenRouter and local providers".toList)
    ∧ (∀ (σ : Type) (outcome : Except Str (List (ExaRawResult σ)))
        (llm : Str → Str) (st : WebSearchStateRec),
        web_research_exa "local".toList [] outcome llm st
          = .error "Exa API key is required for OpenRouter and local providers".toList)
    ∧ graph_module_init "openrouter".toList [] = .ok () :=
  c6_credential_check_amended [] rfl

/-- C6 counterexample: with the `openrouter` provider and an empty Exa key,
module-level initialisation succeeds (no check), `generate_query` (the node
that runs before the loop) succeeds — it never touches the Exa key — and
the missing credential is first raised inside a `web_research` node: the
error is *not* surfaced before the research loop runs, contradicting the
claim. -/
theorem c6_counterexample :
    graph_module_init "openrouter".toList [] = .ok ()
    ∧ generate_query none 3 (fun _ => ["q".toList]) "topic".toList
      = .ok (["q".toList], [.llm_call (query_writer_prompt "topic".toList 3)])
    ∧ web_research_exa (σ := Unit) "openrouter".toList [] (.ok [])
        (fun _ => []) ⟨"q".toList, 0⟩
      = .error "Exa API key is required for OpenRouter and local providers".toList :=
  ⟨rfl, rfl, rfl⟩

/-! ## Claim C7: structured decode errors -/

/-- C7 (amended): on the non-native structured-output path, a
`json.loads` failure is caught and rewrapped as the typed `ValueError`
whose message contains the raw (fence-stripped) response text; but a
response that is valid JSON and fails the schema construction
(`self.schema(**data)`) propagates the validator's own exception unwrapped
— the wrapper attaches no response text to it. -/
theorem c7_structured_error_amended {J R : Type} (loads : Str → Except Str J)
    (schemaCtor : J → Except Str R) (resp : Str) :
    (∀ e, loads (extract_json_content resp) = .error e →
        structured_invoke loads schemaCtor resp
          = .error (.jsonParseError (jsonFailMsg e (extract_json_content resp)))
        ∧ pyContains (extract_json_content resp)
            (jsonFailMsg e (extract_json_content resp)) = true)
    ∧ (∀ d e, loads (extract_json_content resp) = .ok d →
        schemaCtor d = .error e →
        structured_invoke loads schemaCtor resp = .error (.schemaException e)) := by
  constructor
  · intro e he
    constructor
    · simp only [structured_invoke]
      rw [he]
    · rw [pyContains_infix_iff]
      exact (List.suffix_append _ _).isInfix
  · intro d e hd he
    simp only [structured_invoke]
    rw [hd]
    show (match schemaCtor d with
      | Except.error e => Except.error (StructuredError.schemaException e)
      | Except.ok r => Except.ok r) = Except.error (StructuredError.schemaException e)
    rw [he]

/-- C7 witness: a malformed-JSON response is rewrapped with the raw text
included, while a valid-JSON-but-schema-mismatched response surfaces the
validator's own exception. -/
theorem c7_structured_error_amended_witness :
    (structured_invoke loads_fail ctor0 "oops".toList
        = .error (.jsonParseError (jsonFailMsg
            "Expecting value: line 1 column 1 (char 0)".toList
            (extract_json_content "oops".toList)))
      ∧ pyContains (extract_json_content "oops".toList)
          (jsonFailMsg "Expecting value: line 1 column 1 (char 0)".toList
            (extract_json_content "oops".toList)) = true)
    ∧ structured_invoke loads0 ctor0 "[1, 2]".toList
        = .error (.schemaException
            "argument after ** must be a mapping, not list".toList) :=
  ⟨(c7_structured_error_amended loads_fail ctor0 "oops".toList).1
      "Expecting value: line 1 column 1 (char 0)".toList rfl,
   (c7_structured_error_amended loads0 ctor0 "[1, 2]".toList).2
      "[1, 2]".toList "argument after ** must be a mapping, not list".toList rfl rfl⟩

/-- C7 counterexample: the response `[1, 2]` is valid JSON that does not
match the schema (not an object); `invoke` does not raise its typed parse
error — the pydantic/`TypeError` exception propagates unwrapped, and its
message does not include the raw offending response text. -/
theorem c7_counterexample :
    structured_invoke loads0 ctor0 "[1, 2]".toList
      = .error (.schemaException
          "argument after ** must be a mapping, not list".toList)
    ∧ pyContains "[1, 2]".toList
        "argument after ** must be a mapping, not list".toList = false := by
  refine ⟨rfl, by decide⟩

/-! ## Claim C8: generate_query -/

/-- C8 (confirmed): whenever `generate_query` returns, its query list is
non-empty and duplicate-free (guaranteed by the structured decode of
`SearchQueryList`, modelled from the spec since `tools_and_schemas.py` is
not under src/), the node issues no search call (its provider-call log
holds only the single LLM call), and the list is exactly the decoded LLM
output. -/
theorem c8_generate_query_confirmed (init : Option Nat) (dflt : Nat)
    (llm : Str → List Str) (topic : Str) (qs : List Str)
    (calls : List ExternalCall)
    (h : generate_query init dflt llm topic = .ok (qs, calls)) :
    qs ≠ [] ∧ qs.Nodup
    ∧ (∀ c ∈ calls, ∀ q, c ≠ .search_call q)
    ∧ qs = llm (query_writer_prompt topic (init.getD dflt)) := by
  simp only [generate_query] at h
  cases hdec : search_query_list_decode (llm (query_writer_prompt topic (init.getD dflt))) with
  | error e =>
    rw [hdec] at h
    exact absurd h (by simp)
  | ok qs2 =>
    rw [hdec] at h
    have h1 : (qs2, ([.llm_call (query_writer_prompt topic (init.getD dflt))]
        : List ExternalCall)) = (qs, calls) := by
      exact Except.ok.inj h
    have hqs : qs = qs2 := (congrArg Prod.fst h1).symm
    have hcalls : calls
        = [.llm_call (query_writer_prompt topic (init.getD dflt))] :=
      (congrArg Prod.snd h1).symm
    simp only [search_query_list_decode] at hdec
    by_cases hv : (llm (query_writer_prompt topic (init.getD dflt)) ≠ []
        ∧ (llm (query_writer_prompt topic (init.getD dflt))).Nodup)
    · rw [if_pos hv] at hdec
      have hq2 : llm (query_writer_prompt topic (init.getD dflt)) = qs2 :=
        Except.ok.inj hdec
      subst hqs
      refine ⟨hq2 ▸ hv.1, hq2 ▸ hv.2, ?_, hq2.symm⟩
      intro c hc q
      rw [hcalls] at hc
      simp only [List.mem_singleton] at hc
      subst hc
      simp
    · rw [if_neg hv] at hdec
      exact absurd hdec (by simp)

/-- C8 witness: a concrete successful generation. -/
theorem c8_generate_query_confirmed_witness :
    (["a".toList, "b".toList] : List Str) ≠ []
    ∧ (["a".toList, "b".toList] : List Str).Nodup
    ∧ (∀ c ∈ [ExternalCall.llm_call (query_writer_prompt "topic".toList 3)],
        ∀ q, c ≠ ExternalCall.search_call q)
    ∧ (["a".toList, "b".toList] : List Str)
      = (fun _ => ["a".toList, "b".toList] : Str → List Str)
          (query_writer_prompt "topic".toList ((none : Option Nat).getD 3)) :=
  c8_generate_query_confirmed none 3 (fun _ => ["a".toList, "b".toList])
    "topic".toList ["a".toList, "b".toList]
    [ExternalCall.llm_call (query_writer_prompt "topic".toList 3)] rfl

/-! ## Claim C9: model-listing fallback -/

/-- C9 (confirmed): for each provider, every failure mode of the live
model-listing call — missing credential, raised exception, non-200 status,
or an (after filtering) empty payload — yields a record with
`source = "fallback"`, the provider's fixed non-empty hardcoded models
list, and the triggering error message in the `error` field. -/
theorem c9_model_listing_fallback_confirmed :
    google_fallback_models ≠ [] ∧ openrouter_fallback_models ≠ []
    ∧ local_default_models ≠ []
    ∧ (∀ listing, list_google_models [] listing
        = ⟨google_fallback_models, "fallback".toList, "google".toList,
            some "No API key".toList⟩)
    ∧ (∀ key e, key.isEmpty = false → list_google_models key (.error e)
        = ⟨google_fallback_models, "fallback".toList, "google".toList, some e⟩)
    ∧ (∀ key ms, key.isEmpty = false →
        ((ms.filter include_google_model).map google_entry).isEmpty = true →
        list_google_models key (.ok ms)
        = ⟨google_fallback_models, "fallback".toList, "google".toList,
            some "No models in response".toList⟩)
    ∧ (∀ resp, list_openrouter_models [] resp
        = ⟨openrouter_fallback_models, "fallback".toList, "openrouter".toList,
            some "No API key".toList⟩)
    ∧ (∀ key e, key.isEmpty = false → list_openrouter_models key (.error e)
        = ⟨openrouter_fallback_models, "fallback".toList, "openrouter".toList,
            some e⟩)
    ∧ (∀ key status data, key.isEmpty = false → status ≠ 200 →
        list_openrouter_models key (.ok (status, data))
        = ⟨openrouter_fallback_models, "fallback".toList, "openrouter".toList,
            some ("API error: ".toList ++ natStr status)⟩)
    ∧ (∀ key data, key.isEmpty = false →
        ((data.filter keep_openrouter_model).map openrouter_entry).isEmpty = true →
        list_openrouter_models key (.ok (200, data))
        = ⟨openrouter_fallback_models, "fallback".toList, "openrouter".toList,
            some "No models found".toList⟩)
    ∧ (∀ e, list_local_models (.error e)
        = ⟨local_default_models, "fallback".toList, "local".toList, some e⟩)
    ∧ (∀ status data, status ≠ 200 → list_local_models (.ok (status, data))
        = ⟨local_default_models, "fallback".toList, "local".toList,
            some ("API error: ".toList ++ natStr status)⟩)
    ∧ list_local_models (.ok (200, []))
        = ⟨local_default_models, "fallback".toList, "local".toList,
            some "No models found".toList⟩ := by
  refine ⟨by simp [google_fallback_models], by simp [openrouter_fallback_models],
    by simp [local_default_models], fun listing => rfl, ?_, ?_, fun resp => rfl,
    ?_, ?_, ?_, fun e => rfl, ?_, rfl⟩
  · intro key e hk
    simp [list_google_models, fetch_models_from_google, hk]
  · intro key ms hk hempty
    simp [list_google_models, fetch_models_from_google, hk, hempty]
  · intro key e hk
    simp [list_openrouter_models, fetch_openrouter_models, hk]
  · intro key status data hk hst
    simp [list_openrouter_models, fetch_openrouter_models, hk, hst]
  · intro key data hk hempty
    simp [list_openrouter_models, fetch_openrouter_models, hk, hempty]
  · intro status data hst
    simp [list_local_models, fetch_local_models, hst]

/-- C9 witness: each failure mode instantiated concretely — an exception,
a 503 status, a missing key and an empty payload all fall back to the
hardcoded lists with the triggering message. -/
theorem c9_model_listing_fallback_confirmed_witness :
    list_google_models "K".toList (.error "boom".toList)
      = ⟨google_fallback_models, "fallback".toList, "google".toList,
          some "boom".toList⟩
    ∧ list_google_models "K".toList (.ok [])
      = ⟨google_fallback_models, "fallback".toList, "google".toList,
          some "No models in response".toList⟩
    ∧ list_openrouter_models [] (.error "never called".toList)
      = ⟨openrouter_fallback_models, "fallback".toList, "openrouter".toList,
          some "No API key".toList⟩
    ∧ list_openrouter_models "K".toList (.ok (503, []))
      = ⟨openrouter_fallback_models, "fallback".toList, "openrouter".toList,
          some ("API error: ".toList ++ natStr 503)⟩
    ∧ list_local_models (.ok (404, []))
      = ⟨local_default_models, "fallback".toList, "local".toList,
          some ("API error: ".toList ++ natStr 404)⟩ :=
  ⟨c9_model_listing_fallback_confirmed.2.2.2.2.1 "K".toList "boom".toList rfl,
   c9_model_listing_fallback_confirmed.2.2.2.2.2.1 "K".toList [] rfl rfl,
   c9_model_listing_fallback_confirmed.2.2.2.2.2.2.1 (.error "never called".toList),
   c9_model_listing_fallback_confirmed.2.2.2.2.2.2.2.2.1 "K".toList 503 [] rfl
     (by decide),
   c9_model_listing_fallback_confirmed.2.2.2.2.2.2.2.2.2.2.2.1 404 [] (by decide)⟩

end DeepResearch
